import Mathlib

/-!
Shallow embedding of the multi-block coupling core of the structured 2D
compressible FVM fluid solver (`multiblocksolver/multiblock_solver.py`):
connection geometry resolution, staged halo transfers between blocks, the
RK3 and dual-time stepping traces, and the interactive simulation loop.
Block field arrays are embedded as total functions from integer cell
indices; cell payloads are kept abstract (a type parameter), since every
transfer is a pure copy.
-/

set_option maxHeartbeats 1000000

/-- A 2D integer index or offset, as used for taichi `ti.Vector([a, b])`. -/
abbrev Vec2 := ℤ × ℤ

/-- Componentwise addition of 2D index vectors. -/
def add2 (a b : Vec2) : Vec2 := (a.1 + b.1, a.2 + b.2)

/-- Scalar multiple of a 2D index vector (`i * direction_offset`). -/
def smul2 (k : ℤ) (v : Vec2) : Vec2 := (k * v.1, k * v.2)

/-- Pointwise update of a field at one index (`field[I] = v`). -/
def updateF {α β : Type} [DecidableEq α] (f : α → β) (x : α) (v : β) : α → β :=
  fun y => if y = x then v else f y

/-- One side of a connection with the block index removed:
`(start index, march direction, surface direction, surface start or end)`,
the tuple `conn_info` read positionally in `calc_bc_connection_positions`. -/
structure ConnInfo where
  index_start : ℤ
  direction : ℤ
  surf_ij : ℕ
  surf_0n : ℕ
deriving DecidableEq, Repr

/-- Embedding of `MultiBlockSolver.calc_bc_connection_positions`: from one
side's descriptor and the owning block's dimensions, produce
`(pos_start, direction_offset, bc_offset)`.  The taichi function initialises
the three vectors to zero and reassigns them in the four branches; the
functional translation returns the branch values directly. -/
def calc_bc_connection_positions (conn_info : ConnInfo) (ni nj : ℤ) :
    Vec2 × Vec2 × Vec2 :=
  let index_start := conn_info.index_start
  let direction := conn_info.direction
  let surf_ij := conn_info.surf_ij
  let surf_0n := conn_info.surf_0n
  if surf_ij = 0 then
    let direction_offset : Vec2 := (0, direction)
    if surf_0n = 0 then
      (((1 : ℤ), index_start), direction_offset, ((-1 : ℤ), (0 : ℤ)))
    else
      ((ni, index_start), direction_offset, ((1 : ℤ), (0 : ℤ)))
  else
    let direction_offset : Vec2 := (direction, 0)
    if surf_0n = 0 then
      ((index_start, (1 : ℤ)), direction_offset, ((0 : ℤ), (-1 : ℤ)))
    else
      ((index_start, nj), direction_offset, ((0 : ℤ), (1 : ℤ)))

/-- Embedding of `MultiBlockSolver.calc_bc_surf_range`: offset from a cell
index to its bounding face index for surface-stored quantities. -/
def calc_bc_surf_range (dir send : ℕ) : Vec2 :=
  if dir = 0 then
    if send = 1 then ((0 : ℤ), (0 : ℤ)) else ((-1 : ℤ), (0 : ℤ))
  else
    if send = 1 then ((0 : ℤ), (0 : ℤ)) else ((0 : ℤ), (-1 : ℤ))

/-- Spec-side definition of the connection geometry resolver, written from
the claim's wording: i-face gives march offset `(0, direction)` with
`pos_start = (1, index_start)`, `halo_offset = (-1, 0)` on the start side
and `pos_start = (ni, index_start)`, `halo_offset = (1, 0)` on the end
side; the j-face is the axis-swapped symmetric rule. -/
def connection_geometry_spec (d : ConnInfo) (ni nj : ℤ) : Vec2 × Vec2 × Vec2 :=
  if d.surf_ij = 0 then
    if d.surf_0n = 0 then
      (((1 : ℤ), d.index_start), ((0 : ℤ), d.direction), ((-1 : ℤ), (0 : ℤ)))
    else
      ((ni, d.index_start), ((0 : ℤ), d.direction), ((1 : ℤ), (0 : ℤ)))
  else
    if d.surf_0n = 0 then
      ((d.index_start, (1 : ℤ)), (d.direction, (0 : ℤ)), ((0 : ℤ), (-1 : ℤ)))
    else
      ((d.index_start, nj), (d.direction, (0 : ℤ)), ((0 : ℤ), (1 : ℤ)))

/-- Spec-side definition of `SurfaceRangeOffset`, written from the claim's
wording: the zero offset on the end side, an offset of `-1` applied to the
face's own axis on the start side. -/
def surface_range_offset_spec (dir send : ℕ) : Vec2 :=
  if send = 1 then ((0 : ℤ), (0 : ℤ))
  else if dir = 0 then ((-1 : ℤ), (0 : ℤ)) else ((0 : ℤ), (-1 : ℤ))

/-- C2: for every descriptor with march direction in {+1,-1} and every block
dimensions, the connection geometry resolver is a pure total function
returning exactly the four `(pos_start, direction_offset, halo_offset)`
tuples the claim lists for (i-face/j-face) × (start/end). -/
theorem calc_bc_connection_positions_matches_spec (d : ConnInfo) (ni nj : ℤ)
    (hdir : d.direction = 1 ∨ d.direction = -1) :
    calc_bc_connection_positions d ni nj = connection_geometry_spec d ni nj := by
  unfold calc_bc_connection_positions connection_geometry_spec
  by_cases h1 : d.surf_ij = 0 <;> by_cases h2 : d.surf_0n = 0 <;> simp [h1, h2]

/-- Concrete instantiation of the C2 theorem at descriptor
`(index_start 2, direction 1, i-face, start side)` on a 5×7 block. -/
theorem calc_bc_connection_positions_matches_spec_witness :
    ((1 : ℤ) = 1 ∨ (1 : ℤ) = -1) ∧
      calc_bc_connection_positions ⟨2, 1, 0, 0⟩ 5 7 =
        connection_geometry_spec ⟨2, 1, 0, 0⟩ 5 7 :=
  ⟨Or.inl rfl,
    calc_bc_connection_positions_matches_spec ⟨2, 1, 0, 0⟩ 5 7 (Or.inl rfl)⟩

/-- The per-block fields that inter-block transfers read and write, embedded
as total functions over integer cell indices.  Cell payloads are an abstract
type `V` (every transfer is a pure copy); `elem_width` keeps its two
grid-logical components, and surface fields carry the extra surface-axis
index of `field[I_surf, dir]`. -/
structure BlockState (V : Type) where
  ni : ℤ
  nj : ℤ
  elem_area : Vec2 → V
  elem_width : Vec2 → V × V
  q : Vec2 → V
  gradient_v_c : Vec2 → V
  gradient_temp_c : Vec2 → V
  v_c : Vec2 → V
  temp_c : Vec2 → V
  v_surf : Vec2 × ℕ → V
  temp_surf : Vec2 × ℕ → V
  gradient_v_surf : Vec2 × ℕ → V
  gradient_temp_surf : Vec2 × ℕ → V

/-- The body of the `for i in range(num)` loop of the kernel
`MultiBlockSolver.bc_connection`, acting on the owning solver's state `s`.
All reads are from `solver_other`, which the kernel never writes (the model
threads it unchanged), so reading it from the pre-kernel snapshot is exact.
Stage 10 delegates to the block solver's own
`bc_connection_advect_flux_cell(I, I_bc, surf dir, surf end)` hook, which is
outside this repository's core and is kept as an abstract `hook` parameter.
The geometry-stage `elem_width` swap branch performs two component
assignments that read only `solver_other`, so their net effect is the single
component-swapped update written here. -/
def bc_cell_update {V : Type}
    (hook : BlockState V → Vec2 → Vec2 → ℕ → ℕ → BlockState V)
    (solver_other : BlockState V)
    (conn_pos_start conn_direction_offset conn_offset : Vec2)
    (other_pos_start other_direction_offset : Vec2)
    (offset_surf_range other_offset_surf_range : Vec2)
    (conn_dir other_conn_dir : ℕ)
    (bc_conn_info bc_other_info : ConnInfo)
    (stage : ℤ) (s : BlockState V) (i : ℕ) : BlockState V :=
  let I := add2 conn_pos_start (smul2 (i : ℤ) conn_direction_offset)
  let I_bc := add2 I conn_offset
  let I_other := add2 other_pos_start (smul2 (i : ℤ) other_direction_offset)
  let I_surf := add2 I offset_surf_range
  let I_surf_other := add2 I_other other_offset_surf_range
  if stage = -1 then
    let s1 := { s with elem_area := updateF s.elem_area I_bc (solver_other.elem_area I_other) }
    if bc_conn_info.surf_ij = bc_other_info.surf_ij then
      { s1 with elem_width := updateF s1.elem_width I_bc (solver_other.elem_width I_other) }
    else
      let swapped := ((solver_other.elem_width I_other).2, (solver_other.elem_width I_other).1)
      { s1 with elem_width := updateF s1.elem_width I_bc swapped }
  else if stage = 0 then
    { s with q := updateF s.q I_bc (solver_other.q I_other) }
  else if stage = 1 then
    { s with
        gradient_v_c := updateF s.gradient_v_c I_bc (solver_other.gradient_v_c I_other),
        gradient_temp_c := updateF s.gradient_temp_c I_bc (solver_other.gradient_temp_c I_other) }
  else if stage = 10 then
    hook s I I_bc bc_conn_info.surf_ij bc_conn_info.surf_0n
  else if stage = 20 then
    { s with
        v_c := updateF s.v_c I_bc (solver_other.v_c I_other),
        temp_c := updateF s.temp_c I_bc (solver_other.temp_c I_other) }
  else if stage = 21 then
    { s with
        v_surf := updateF s.v_surf (I_surf, conn_dir) (solver_other.v_surf (I_surf_other, other_conn_dir)),
        temp_surf := updateF s.temp_surf (I_surf, conn_dir) (solver_other.temp_surf (I_surf_other, other_conn_dir)) }
  else if stage = 22 then
    { s with
        gradient_v_surf := updateF s.gradient_v_surf (I_surf, conn_dir) (solver_other.gradient_v_surf (I_surf_other, other_conn_dir)),
        gradient_temp_surf := updateF s.gradient_temp_surf (I_surf, conn_dir) (solver_other.gradient_temp_surf (I_surf_other, other_conn_dir)) }
  else
    s

/-- Embedding of the kernel `MultiBlockSolver.bc_connection`: resolve both
sides' geometry, then run the transfer loop over `i in range(num)`.  The
kernel assigns only to `solver`'s fields, so the neighbouring block is
returned unchanged as the second component. -/
def bc_connection {V : Type}
    (hook : BlockState V → Vec2 → Vec2 → ℕ → ℕ → BlockState V)
    (solver solver_other : BlockState V)
    (bc_conn_info bc_other_info : ConnInfo)
    (num : ℕ) (stage : ℤ) : BlockState V × BlockState V :=
  let conn := calc_bc_connection_positions bc_conn_info solver.ni solver.nj
  let conn_pos_start := conn.1
  let conn_direction_offset := conn.2.1
  let conn_offset := conn.2.2
  let other := calc_bc_connection_positions bc_other_info solver_other.ni solver_other.nj
  let other_pos_start := other.1
  let other_direction_offset := other.2.1
  let offset_surf_range := calc_bc_surf_range bc_conn_info.surf_ij bc_conn_info.surf_0n
  let conn_dir := bc_conn_info.surf_ij
  let other_offset_surf_range := calc_bc_surf_range bc_other_info.surf_ij bc_other_info.surf_0n
  let other_conn_dir := bc_other_info.surf_ij
  ((List.range num).foldl
      (bc_cell_update hook solver_other conn_pos_start conn_direction_offset conn_offset
        other_pos_start other_direction_offset offset_surf_range other_offset_surf_range
        conn_dir other_conn_dir bc_conn_info bc_other_info stage)
      solver,
    solver_other)

/-- The owner-side halo cell written at loop iteration `i`:
`pos_start + i * direction_offset + halo_offset`. -/
def halo_target (bc_conn_info : ConnInfo) (ni nj : ℤ) (i : ℕ) : Vec2 :=
  let conn := calc_bc_connection_positions bc_conn_info ni nj
  add2 (add2 conn.1 (smul2 (i : ℤ) conn.2.1)) conn.2.2

/-- The neighbour-side real cell read at loop iteration `i`:
`other_pos_start + i * other_direction_offset`. -/
def source_cell (bc_other_info : ConnInfo) (ni nj : ℤ) (i : ℕ) : Vec2 :=
  let other := calc_bc_connection_positions bc_other_info ni nj
  add2 other.1 (smul2 (i : ℤ) other.2.1)

/-- The owner-side surface slot written at loop iteration `i` of a
surface-valued stage: `(I + offset_surf_range, conn_dir)`. -/
def surf_target (bc_conn_info : ConnInfo) (ni nj : ℤ) (i : ℕ) : Vec2 × ℕ :=
  let conn := calc_bc_connection_positions bc_conn_info ni nj
  (add2 (add2 conn.1 (smul2 (i : ℤ) conn.2.1))
      (calc_bc_surf_range bc_conn_info.surf_ij bc_conn_info.surf_0n),
    bc_conn_info.surf_ij)

/-- The neighbour-side surface slot read at loop iteration `i`:
`(I_other + other_offset_surf_range, other_conn_dir)`. -/
def surf_source (bc_other_info : ConnInfo) (ni nj : ℤ) (i : ℕ) : Vec2 × ℕ :=
  let other := calc_bc_connection_positions bc_other_info ni nj
  (add2 (add2 other.1 (smul2 (i : ℤ) other.2.1))
      (calc_bc_surf_range bc_other_info.surf_ij bc_other_info.surf_0n),
    bc_other_info.surf_ij)

/-- After folding writes over `range num`, the projection at the `i`-th
target holds the `i`-th written value, provided each iteration writes its
own target, leaves other indices alone, and targets are injective. -/
theorem foldl_write_get {σ α β : Type} (upd : σ → ℕ → σ) (proj : σ → α → β)
    (tgtF : ℕ → α) (valF : ℕ → β) (num : ℕ)
    (hstep : ∀ s i, i < num → proj (upd s i) (tgtF i) = valF i)
    (hframe : ∀ s i x, i < num → x ≠ tgtF i → proj (upd s i) x = proj s x)
    (hinj : ∀ i j, i < num → j < num → tgtF i = tgtF j → i = j)
    (s0 : σ) (i : ℕ) (hi : i < num) :
    proj ((List.range num).foldl upd s0) (tgtF i) = valF i := by
  suffices h : ∀ n, n ≤ num → ∀ k, k < n →
      proj ((List.range n).foldl upd s0) (tgtF k) = valF k from h num le_rfl i hi
  intro n
  induction n with
  | zero => intro _ k hk; exact absurd hk (Nat.not_lt_zero k)
  | succ m ih =>
    intro hm k hk
    rw [List.range_succ, List.foldl_append]
    simp only [List.foldl_cons, List.foldl_nil]
    by_cases hcase : k = m
    · subst hcase
      exact hstep _ k (by omega)
    · have hne : tgtF k ≠ tgtF m := fun he => hcase (hinj k m (by omega) (by omega) he)
      rw [hframe _ m _ (by omega) hne]
      exact ih (by omega) k (by omega)

/-- Indices never written by any iteration keep their initial projection. -/
theorem foldl_write_frame {σ α β : Type} (upd : σ → ℕ → σ) (proj : σ → α → β)
    (tgtF : ℕ → α) (num : ℕ)
    (hframe : ∀ s i x, i < num → x ≠ tgtF i → proj (upd s i) x = proj s x)
    (s0 : σ) (x : α) (hx : ∀ j, j < num → x ≠ tgtF j) :
    proj ((List.range num).foldl upd s0) x = proj s0 x := by
  suffices h : ∀ n, n ≤ num → proj ((List.range n).foldl upd s0) x = proj s0 x from
    h num le_rfl
  intro n
  induction n with
  | zero => intro _; rfl
  | succ m ih =>
    intro hm
    rw [List.range_succ, List.foldl_append]
    simp only [List.foldl_cons, List.foldl_nil]
    rw [hframe _ m x (by omega) (hx m (by omega))]
    exact ih (by omega)

/-- A projection untouched by every iteration is preserved by the fold. -/
theorem foldl_preserve {σ γ : Type} (upd : σ → ℕ → σ) (proj : σ → γ) (num : ℕ)
    (h : ∀ s i, i < num → proj (upd s i) = proj s) (s0 : σ) :
    proj ((List.range num).foldl upd s0) = proj s0 := by
  suffices hh : ∀ n, n ≤ num → proj ((List.range n).foldl upd s0) = proj s0 from
    hh num le_rfl
  intro n
  induction n with
  | zero => intro _; rfl
  | succ m ih =>
    intro hm
    rw [List.range_succ, List.foldl_append]
    simp only [List.foldl_cons, List.foldl_nil]
    rw [h _ m (by omega)]
    exact ih (by omega)

/-- Folding a pointwise-identity update leaves the state unchanged. -/
theorem foldl_fixed_of_id {σ : Type} (upd : σ → ℕ → σ) (num : ℕ)
    (h : ∀ s i, upd s i = s) (s0 : σ) : (List.range num).foldl upd s0 = s0 := by
  induction num with
  | zero => rfl
  | succ m ih =>
    rw [List.range_succ, List.foldl_append]
    simp only [List.foldl_cons, List.foldl_nil]
    rw [h, ih]

/-- Distinct loop iterations write distinct halo cells, because the march
direction offset moves one coordinate by the nonzero `direction` each step
while the halo offset is constant. -/
theorem halo_target_inj (ci : ConnInfo) (ni nj : ℤ)
    (hdir : ci.direction = 1 ∨ ci.direction = -1) (i j : ℕ)
    (h : halo_target ci ni nj i = halo_target ci ni nj j) : i = j := by
  unfold halo_target calc_bc_connection_positions at h
  rcases hdir with hd | hd <;>
    by_cases h1 : ci.surf_ij = 0 <;> by_cases h2 : ci.surf_0n = 0 <;>
      simp [h1, h2, hd, add2, smul2, Prod.ext_iff] at h <;> omega

/-- Distinct loop iterations write distinct surface slots. -/
theorem surf_target_inj (ci : ConnInfo) (ni nj : ℤ)
    (hdir : ci.direction = 1 ∨ ci.direction = -1) (i j : ℕ)
    (h : surf_target ci ni nj i = surf_target ci ni nj j) : i = j := by
  unfold surf_target calc_bc_connection_positions calc_bc_surf_range at h
  rcases hdir with hd | hd <;>
    by_cases h1 : ci.surf_ij = 0 <;> by_cases h2 : ci.surf_0n = 0 <;>
      simp [h1, h2, hd, add2, smul2, Prod.ext_iff] at h <;> omega

/-- C3: for every coupling of two blocks with matching cell count `num`,
after a state-stage (stage 0) transfer, the owner's halo cell at
`pos_start + i*direction_offset + halo_offset` holds exactly the conserved
state `q` of the neighbour's real cell at
`other_pos_start + i*other_direction_offset`, read from the neighbour as of
the start of the synchronization (the transfer never writes the neighbour,
so its pre-transfer snapshot is what is read). -/
theorem state_stage_sync_copies_q {V : Type}
    (hook : BlockState V → Vec2 → Vec2 → ℕ → ℕ → BlockState V)
    (solver solver_other : BlockState V) (ci oi : ConnInfo) (num : ℕ)
    (hdir : ci.direction = 1 ∨ ci.direction = -1) (i : ℕ) (hi : i < num) :
    (bc_connection hook solver solver_other ci oi num 0).1.q
        (halo_target ci solver.ni solver.nj i)
      = solver_other.q (source_cell oi solver_other.ni solver_other.nj i) := by
  unfold bc_connection
  refine foldl_write_get _ BlockState.q
    (halo_target ci solver.ni solver.nj)
    (fun k => solver_other.q (source_cell oi solver_other.ni solver_other.nj k))
    num ?_ ?_ ?_ solver i hi
  · intro s k hk
    simp [bc_cell_update, updateF, halo_target, source_cell]
  · intro s k x hk hne
    simp only [halo_target] at hne
    simp [bc_cell_update, updateF, hne]
  · intro a b ha hb he
    exact halo_target_inj ci solver.ni solver.nj hdir a b he

/-- Concrete stage-10 hook (identity) for witnesses. -/
def wHook : BlockState ℕ → Vec2 → Vec2 → ℕ → ℕ → BlockState ℕ := fun s _ _ _ _ => s

/-- Concrete 4×4 owner block for witnesses. -/
def wBlockA : BlockState ℕ :=
  { ni := 4, nj := 4,
    elem_area := fun _ => 1,
    elem_width := fun _ => (2, 3),
    q := fun p => (100 + p.1 + 10 * p.2).toNat,
    gradient_v_c := fun _ => 4,
    gradient_temp_c := fun _ => 5,
    v_c := fun _ => 6,
    temp_c := fun _ => 7,
    v_surf := fun _ => 8,
    temp_surf := fun _ => 9,
    gradient_v_surf := fun _ => 10,
    gradient_temp_surf := fun _ => 11 }

/-- Concrete 4×4 neighbour block for witnesses, with position-dependent
fields so copies are observable. -/
def wBlockB : BlockState ℕ :=
  { ni := 4, nj := 4,
    elem_area := fun p => (200 + p.1 + 10 * p.2).toNat,
    elem_width := fun p => ((20 + p.1).toNat, (30 + p.2).toNat),
    q := fun p => (300 + p.1 + 10 * p.2).toNat,
    gradient_v_c := fun p => (40 + p.1).toNat,
    gradient_temp_c := fun p => (50 + p.2).toNat,
    v_c := fun p => (60 + p.1).toNat,
    temp_c := fun p => (70 + p.2).toNat,
    v_surf := fun ps => (80 + ps.1.1 + 2 * (ps.2 : ℤ)).toNat,
    temp_surf := fun ps => (90 + ps.1.2 + (ps.2 : ℤ)).toNat,
    gradient_v_surf := fun ps => (15 + ps.1.1 + (ps.2 : ℤ)).toNat,
    gradient_temp_surf := fun ps => (25 + ps.1.2 + (ps.2 : ℤ)).toNat }

/-- Concrete instantiation of the C3 theorem: i-start face of the owner
coupled to the i-end face of the neighbour, `num = 3`, cell `i = 1`. -/
theorem state_stage_sync_copies_q_witness :
    ((1 : ℤ) = 1 ∨ (1 : ℤ) = -1) ∧ 1 < 3 ∧
      (bc_connection wHook wBlockA wBlockB ⟨1, 1, 0, 0⟩ ⟨1, 1, 0, 1⟩ 3 0).1.q
          (halo_target ⟨1, 1, 0, 0⟩ wBlockA.ni wBlockA.nj 1)
        = wBlockB.q (source_cell ⟨1, 1, 0, 1⟩ wBlockB.ni wBlockB.nj 1) :=
  ⟨Or.inl rfl, by decide,
    state_stage_sync_copies_q wHook wBlockA wBlockB ⟨1, 1, 0, 0⟩ ⟨1, 1, 0, 1⟩ 3
      (Or.inl rfl) 1 (by decide)⟩

/-- C4: for every connection, the geometry-stage (stage -1) transfer copies
`elem_area` unconditionally, and copies `elem_width` component-wise
unchanged when the two descriptors' face axes agree but with components 0
and 1 swapped when one descriptor is an i-face and the other a j-face. -/
theorem geometry_stage_copies_area_and_width {V : Type}
    (hook : BlockState V → Vec2 → Vec2 → ℕ → ℕ → BlockState V)
    (solver solver_other : BlockState V) (ci oi : ConnInfo) (num : ℕ)
    (hdir : ci.direction = 1 ∨ ci.direction = -1) (i : ℕ) (hi : i < num) :
    (bc_connection hook solver solver_other ci oi num (-1)).1.elem_area
        (halo_target ci solver.ni solver.nj i)
      = solver_other.elem_area (source_cell oi solver_other.ni solver_other.nj i)
    ∧ (bc_connection hook solver solver_other ci oi num (-1)).1.elem_width
        (halo_target ci solver.ni solver.nj i)
      = (if ci.surf_ij = oi.surf_ij then
            solver_other.elem_width (source_cell oi solver_other.ni solver_other.nj i)
          else
            ((solver_other.elem_width (source_cell oi solver_other.ni solver_other.nj i)).2,
              (solver_other.elem_width (source_cell oi solver_other.ni solver_other.nj i)).1)) := by
  constructor
  · unfold bc_connection
    refine foldl_write_get _ BlockState.elem_area
      (halo_target ci solver.ni solver.nj)
      (fun k => solver_other.elem_area (source_cell oi solver_other.ni solver_other.nj k))
      num ?_ ?_ ?_ solver i hi
    · intro s k hk
      simp only [bc_cell_update]
      split <;> split <;> simp_all [updateF, halo_target, source_cell]
    · intro s k x hk hne
      simp only [halo_target] at hne
      simp only [bc_cell_update]
      split <;> split <;> simp_all [updateF]
    · intro a b ha hb he
      exact halo_target_inj ci solver.ni solver.nj hdir a b he
  · unfold bc_connection
    refine foldl_write_get _ BlockState.elem_width
      (halo_target ci solver.ni solver.nj)
      (fun k =>
        if ci.surf_ij = oi.surf_ij then
          solver_other.elem_width (source_cell oi solver_other.ni solver_other.nj k)
        else
          ((solver_other.elem_width (source_cell oi solver_other.ni solver_other.nj k)).2,
            (solver_other.elem_width (source_cell oi solver_other.ni solver_other.nj k)).1))
      num ?_ ?_ ?_ solver i hi
    · intro s k hk
      simp only [bc_cell_update]
      split
      · split <;> rename_i hax <;> simp [hax, updateF, halo_target, source_cell]
      · simp_all
    · intro s k x hk hne
      simp only [halo_target] at hne
      simp only [bc_cell_update]
      split <;> split <;> simp_all [updateF]
    · intro a b ha hb he
      exact halo_target_inj ci solver.ni solver.nj hdir a b he

/-- Concrete instantiation of the C4 theorem: an i-end face coupled to a
j-start face (crossing axes, so the width components swap), `num = 2`,
cell `i = 0`. -/
theorem geometry_stage_copies_area_and_width_witness :
    ((1 : ℤ) = 1 ∨ (1 : ℤ) = -1) ∧ 0 < 2 ∧
      ((bc_connection wHook wBlockA wBlockB ⟨1, 1, 0, 1⟩ ⟨1, 1, 1, 0⟩ 2 (-1)).1.elem_area
          (halo_target ⟨1, 1, 0, 1⟩ wBlockA.ni wBlockA.nj 0)
        = wBlockB.elem_area (source_cell ⟨1, 1, 1, 0⟩ wBlockB.ni wBlockB.nj 0)
      ∧ (bc_connection wHook wBlockA wBlockB ⟨1, 1, 0, 1⟩ ⟨1, 1, 1, 0⟩ 2 (-1)).1.elem_width
          (halo_target ⟨1, 1, 0, 1⟩ wBlockA.ni wBlockA.nj 0)
        = (if (⟨1, 1, 0, 1⟩ : ConnInfo).surf_ij = (⟨1, 1, 1, 0⟩ : ConnInfo).surf_ij then
              wBlockB.elem_width (source_cell ⟨1, 1, 1, 0⟩ wBlockB.ni wBlockB.nj 0)
            else
              ((wBlockB.elem_width (source_cell ⟨1, 1, 1, 0⟩ wBlockB.ni wBlockB.nj 0)).2,
                (wBlockB.elem_width (source_cell ⟨1, 1, 1, 0⟩ wBlockB.ni wBlockB.nj 0)).1))) :=
  ⟨Or.inl rfl, by decide,
    geometry_stage_copies_area_and_width wHook wBlockA wBlockB ⟨1, 1, 0, 1⟩ ⟨1, 1, 1, 0⟩ 2
      (Or.inl rfl) 0 (by decide)⟩


/-- Closed form of one geometry-stage (stage -1) loop iteration: both
branches write `elem_area` and `elem_width` at the halo target, the second
with components swapped when the two face axes differ. -/
theorem bc_cell_update_geom_apply {V : Type}
    (hook : BlockState V → Vec2 → Vec2 → ℕ → ℕ → BlockState V)
    (so : BlockState V) (cpos cdoff coff opos odoff osr oosr : Vec2)
    (cdir ocdir : ℕ) (ci oi : ConnInfo) (s : BlockState V) (k : ℕ) :
    bc_cell_update hook so cpos cdoff coff opos odoff osr oosr cdir ocdir ci oi (-1) s k
      = (if ci.surf_ij = oi.surf_ij then
          { s with
              elem_area := (updateF s.elem_area (add2 (add2 cpos (smul2 (k : ℤ) cdoff)) coff)
                (so.elem_area (add2 opos (smul2 (k : ℤ) odoff)))),
              elem_width := (updateF s.elem_width (add2 (add2 cpos (smul2 (k : ℤ) cdoff)) coff)
                (so.elem_width (add2 opos (smul2 (k : ℤ) odoff)))) }
        else
          { s with
              elem_area := (updateF s.elem_area (add2 (add2 cpos (smul2 (k : ℤ) cdoff)) coff)
                (so.elem_area (add2 opos (smul2 (k : ℤ) odoff)))),
              elem_width := (updateF s.elem_width (add2 (add2 cpos (smul2 (k : ℤ) cdoff)) coff)
                ((so.elem_width (add2 opos (smul2 (k : ℤ) odoff))).2,
                  (so.elem_width (add2 opos (smul2 (k : ℤ) odoff))).1)) }) := by
  simp only [bc_cell_update]
  norm_num

/-- Closed form of one state-stage (stage 0) loop iteration. -/
theorem bc_cell_update_state_apply {V : Type}
    (hook : BlockState V → Vec2 → Vec2 → ℕ → ℕ → BlockState V)
    (so : BlockState V) (cpos cdoff coff opos odoff osr oosr : Vec2)
    (cdir ocdir : ℕ) (ci oi : ConnInfo) (s : BlockState V) (k : ℕ) :
    bc_cell_update hook so cpos cdoff coff opos odoff osr oosr cdir ocdir ci oi 0 s k
      = { s with q := (updateF s.q (add2 (add2 cpos (smul2 (k : ℤ) cdoff)) coff)
            (so.q (add2 opos (smul2 (k : ℤ) odoff)))) } := by
  simp [bc_cell_update]

/-- Closed form of one gradient-center-stage (stage 1) loop iteration. -/
theorem bc_cell_update_gradc_apply {V : Type}
    (hook : BlockState V → Vec2 → Vec2 → ℕ → ℕ → BlockState V)
    (so : BlockState V) (cpos cdoff coff opos odoff osr oosr : Vec2)
    (cdir ocdir : ℕ) (ci oi : ConnInfo) (s : BlockState V) (k : ℕ) :
    bc_cell_update hook so cpos cdoff coff opos odoff osr oosr cdir ocdir ci oi 1 s k
      = { s with
            gradient_v_c := (updateF s.gradient_v_c (add2 (add2 cpos (smul2 (k : ℤ) cdoff)) coff)
              (so.gradient_v_c (add2 opos (smul2 (k : ℤ) odoff)))),
            gradient_temp_c := (updateF s.gradient_temp_c (add2 (add2 cpos (smul2 (k : ℤ) cdoff)) coff)
              (so.gradient_temp_c (add2 opos (smul2 (k : ℤ) odoff)))) } := by
  simp [bc_cell_update]

/-- Closed form of one velocity/temperature-center-stage (stage 20) loop
iteration. -/
theorem bc_cell_update_vtc_apply {V : Type}
    (hook : BlockState V → Vec2 → Vec2 → ℕ → ℕ → BlockState V)
    (so : BlockState V) (cpos cdoff coff opos odoff osr oosr : Vec2)
    (cdir ocdir : ℕ) (ci oi : ConnInfo) (s : BlockState V) (k : ℕ) :
    bc_cell_update hook so cpos cdoff coff opos odoff osr oosr cdir ocdir ci oi 20 s k
      = { s with
            v_c := (updateF s.v_c (add2 (add2 cpos (smul2 (k : ℤ) cdoff)) coff)
              (so.v_c (add2 opos (smul2 (k : ℤ) odoff)))),
            temp_c := (updateF s.temp_c (add2 (add2 cpos (smul2 (k : ℤ) cdoff)) coff)
              (so.temp_c (add2 opos (smul2 (k : ℤ) odoff)))) } := by
  simp [bc_cell_update]

/-- Closed form of one velocity/temperature-surface-stage (stage 21) loop
iteration. -/
theorem bc_cell_update_vts_apply {V : Type}
    (hook : BlockState V → Vec2 → Vec2 → ℕ → ℕ → BlockState V)
    (so : BlockState V) (cpos cdoff coff opos odoff osr oosr : Vec2)
    (cdir ocdir : ℕ) (ci oi : ConnInfo) (s : BlockState V) (k : ℕ) :
    bc_cell_update hook so cpos cdoff coff opos odoff osr oosr cdir ocdir ci oi 21 s k
      = { s with
            v_surf := (updateF s.v_surf (add2 (add2 cpos (smul2 (k : ℤ) cdoff)) osr, cdir)
              (so.v_surf (add2 (add2 opos (smul2 (k : ℤ) odoff)) oosr, ocdir))),
            temp_surf := (updateF s.temp_surf (add2 (add2 cpos (smul2 (k : ℤ) cdoff)) osr, cdir)
              (so.temp_surf (add2 (add2 opos (smul2 (k : ℤ) odoff)) oosr, ocdir))) } := by
  simp [bc_cell_update]

/-- Closed form of one gradient-surface-stage (stage 22) loop iteration. -/
theorem bc_cell_update_grads_apply {V : Type}
    (hook : BlockState V → Vec2 → Vec2 → ℕ → ℕ → BlockState V)
    (so : BlockState V) (cpos cdoff coff opos odoff osr oosr : Vec2)
    (cdir ocdir : ℕ) (ci oi : ConnInfo) (s : BlockState V) (k : ℕ) :
    bc_cell_update hook so cpos cdoff coff opos odoff osr oosr cdir ocdir ci oi 22 s k
      = { s with
            gradient_v_surf := (updateF s.gradient_v_surf (add2 (add2 cpos (smul2 (k : ℤ) cdoff)) osr, cdir)
              (so.gradient_v_surf (add2 (add2 opos (smul2 (k : ℤ) odoff)) oosr, ocdir))),
            gradient_temp_surf := (updateF s.gradient_temp_surf (add2 (add2 cpos (smul2 (k : ℤ) cdoff)) osr, cdir)
              (so.gradient_temp_surf (add2 (add2 opos (smul2 (k : ℤ) odoff)) oosr, ocdir))) } := by
  simp [bc_cell_update]

/-- A stage outside the seven dispatched tags makes one loop iteration a
no-op: the `elif` chain of the kernel falls through to nothing. -/
theorem bc_cell_update_other_apply {V : Type}
    (hook : BlockState V → Vec2 → Vec2 → ℕ → ℕ → BlockState V)
    (so : BlockState V) (cpos cdoff coff opos odoff osr oosr : Vec2)
    (cdir ocdir : ℕ) (ci oi : ConnInfo) (stage : ℤ)
    (h1 : stage ≠ -1) (h2 : stage ≠ 0) (h3 : stage ≠ 1) (h4 : stage ≠ 10)
    (h5 : stage ≠ 20) (h6 : stage ≠ 21) (h7 : stage ≠ 22)
    (s : BlockState V) (k : ℕ) :
    bc_cell_update hook so cpos cdoff coff opos odoff osr oosr cdir ocdir ci oi stage s k = s := by
  simp [bc_cell_update, h1, h2, h3, h4, h5, h6, h7]

/-- C9: for every coupling and every cell-centered copy stage (geometry -1,
state 0, gradient-center 1, velocity/temp-center 20), a single transfer
invocation writes only the `num` owner-side halo cells
`pos_start + i*direction_offset + halo_offset`, which are pairwise
distinct (each halo cell written exactly once per stage invocation); the
neighbour block is returned unchanged, every cell-centered field of the
owner outside that halo set is unchanged, and every surface-indexed field
of the owner is unchanged everywhere. -/
theorem cell_stage_transfer_frame {V : Type}
    (hook : BlockState V → Vec2 → Vec2 → ℕ → ℕ → BlockState V)
    (solver solver_other : BlockState V) (ci oi : ConnInfo) (num : ℕ) (stage : ℤ)
    (hstage : stage = -1 ∨ stage = 0 ∨ stage = 1 ∨ stage = 20)
    (hdir : ci.direction = 1 ∨ ci.direction = -1) :
    (∀ i j, i < num → j < num → i ≠ j →
        halo_target ci solver.ni solver.nj i ≠ halo_target ci solver.ni solver.nj j)
    ∧ (bc_connection hook solver solver_other ci oi num stage).2 = solver_other
    ∧ (∀ x, (∀ j, j < num → x ≠ halo_target ci solver.ni solver.nj j) →
        (bc_connection hook solver solver_other ci oi num stage).1.elem_area x = solver.elem_area x
        ∧ (bc_connection hook solver solver_other ci oi num stage).1.elem_width x = solver.elem_width x
        ∧ (bc_connection hook solver solver_other ci oi num stage).1.q x = solver.q x
        ∧ (bc_connection hook solver solver_other ci oi num stage).1.gradient_v_c x = solver.gradient_v_c x
        ∧ (bc_connection hook solver solver_other ci oi num stage).1.gradient_temp_c x = solver.gradient_temp_c x
        ∧ (bc_connection hook solver solver_other ci oi num stage).1.v_c x = solver.v_c x
        ∧ (bc_connection hook solver solver_other ci oi num stage).1.temp_c x = solver.temp_c x)
    ∧ (bc_connection hook solver solver_other ci oi num stage).1.v_surf = solver.v_surf
    ∧ (bc_connection hook solver solver_other ci oi num stage).1.temp_surf = solver.temp_surf
    ∧ (bc_connection hook solver solver_other ci oi num stage).1.gradient_v_surf = solver.gradient_v_surf
    ∧ (bc_connection hook solver solver_other ci oi num stage).1.gradient_temp_surf = solver.gradient_temp_surf := by
  refine ⟨fun i j hi hj hne he => hne (halo_target_inj ci solver.ni solver.nj hdir i j he),
    rfl, ?_, ?_, ?_, ?_, ?_⟩
  · intro x hx
    refine ⟨?_, ?_, ?_, ?_, ?_, ?_, ?_⟩ <;>
    · unfold bc_connection
      refine foldl_write_frame _ _ (halo_target ci solver.ni solver.nj) num ?_ solver x hx
      intro s k y hk hy
      simp only [halo_target] at hy
      rcases hstage with h | h | h | h <;> subst h <;>
        simp only [bc_cell_update_geom_apply, bc_cell_update_state_apply,
          bc_cell_update_gradc_apply, bc_cell_update_vtc_apply] <;>
        (try split) <;> simp [updateF, hy]
  all_goals
    unfold bc_connection
    refine foldl_preserve _ _ num ?_ solver
    intro s k hk
    rcases hstage with h | h | h | h <;> subst h <;>
      simp only [bc_cell_update_geom_apply, bc_cell_update_state_apply,
        bc_cell_update_gradc_apply, bc_cell_update_vtc_apply] <;>
      (try split) <;> simp

/-- Concrete instantiation of the C9 theorem at the state stage (stage 0)
for a 2-cell coupling between the two witness blocks. -/
theorem cell_stage_transfer_frame_witness :
    ((0 : ℤ) = -1 ∨ (0 : ℤ) = 0 ∨ (0 : ℤ) = 1 ∨ (0 : ℤ) = 20)
    ∧ ((1 : ℤ) = 1 ∨ (1 : ℤ) = -1)
    ∧ ((∀ i j, i < 2 → j < 2 → i ≠ j →
          halo_target ⟨1, 1, 0, 0⟩ wBlockA.ni wBlockA.nj i
            ≠ halo_target ⟨1, 1, 0, 0⟩ wBlockA.ni wBlockA.nj j)
      ∧ (bc_connection wHook wBlockA wBlockB ⟨1, 1, 0, 0⟩ ⟨1, 1, 0, 1⟩ 2 0).2 = wBlockB
      ∧ (∀ x, (∀ j, j < 2 → x ≠ halo_target ⟨1, 1, 0, 0⟩ wBlockA.ni wBlockA.nj j) →
          (bc_connection wHook wBlockA wBlockB ⟨1, 1, 0, 0⟩ ⟨1, 1, 0, 1⟩ 2 0).1.elem_area x = wBlockA.elem_area x
          ∧ (bc_connection wHook wBlockA wBlockB ⟨1, 1, 0, 0⟩ ⟨1, 1, 0, 1⟩ 2 0).1.elem_width x = wBlockA.elem_width x
          ∧ (bc_connection wHook wBlockA wBlockB ⟨1, 1, 0, 0⟩ ⟨1, 1, 0, 1⟩ 2 0).1.q x = wBlockA.q x
          ∧ (bc_connection wHook wBlockA wBlockB ⟨1, 1, 0, 0⟩ ⟨1, 1, 0, 1⟩ 2 0).1.gradient_v_c x = wBlockA.gradient_v_c x
          ∧ (bc_connection wHook wBlockA wBlockB ⟨1, 1, 0, 0⟩ ⟨1, 1, 0, 1⟩ 2 0).1.gradient_temp_c x = wBlockA.gradient_temp_c x
          ∧ (bc_connection wHook wBlockA wBlockB ⟨1, 1, 0, 0⟩ ⟨1, 1, 0, 1⟩ 2 0).1.v_c x = wBlockA.v_c x
          ∧ (bc_connection wHook wBlockA wBlockB ⟨1, 1, 0, 0⟩ ⟨1, 1, 0, 1⟩ 2 0).1.temp_c x = wBlockA.temp_c x)
      ∧ (bc_connection wHook wBlockA wBlockB ⟨1, 1, 0, 0⟩ ⟨1, 1, 0, 1⟩ 2 0).1.v_surf = wBlockA.v_surf
      ∧ (bc_connection wHook wBlockA wBlockB ⟨1, 1, 0, 0⟩ ⟨1, 1, 0, 1⟩ 2 0).1.temp_surf = wBlockA.temp_surf
      ∧ (bc_connection wHook wBlockA wBlockB ⟨1, 1, 0, 0⟩ ⟨1, 1, 0, 1⟩ 2 0).1.gradient_v_surf = wBlockA.gradient_v_surf
      ∧ (bc_connection wHook wBlockA wBlockB ⟨1, 1, 0, 0⟩ ⟨1, 1, 0, 1⟩ 2 0).1.gradient_temp_surf = wBlockA.gradient_temp_surf) :=
  ⟨Or.inr (Or.inl rfl), Or.inl rfl,
    cell_stage_transfer_frame wHook wBlockA wBlockB ⟨1, 1, 0, 0⟩ ⟨1, 1, 0, 1⟩ 2 0
      (Or.inr (Or.inl rfl)) (Or.inl rfl)⟩

/-- C8: `calc_bc_surf_range` returns the zero offset on the end side and an
offset of -1 on the face's own axis on the start side; and the
velocity/temperature-surface (stage 21) and gradient-surface (stage 22)
transfers write the owner's surface fields at
`[I + SurfaceRangeOffset(owner face, owner end), owner face axis]` from the
neighbour's surface fields at
`[I_other + SurfaceRangeOffset(neighbour face, neighbour end), neighbour
face axis]`, each side indexed by its own face axis. -/
theorem surface_stage_transfer_correct {V : Type}
    (hook : BlockState V → Vec2 → Vec2 → ℕ → ℕ → BlockState V)
    (solver solver_other : BlockState V) (ci oi : ConnInfo) (num : ℕ)
    (hdir : ci.direction = 1 ∨ ci.direction = -1) (i : ℕ) (hi : i < num) :
    (∀ dir send, calc_bc_surf_range dir send = surface_range_offset_spec dir send)
    ∧ (bc_connection hook solver solver_other ci oi num 21).1.v_surf
          (surf_target ci solver.ni solver.nj i)
        = solver_other.v_surf (surf_source oi solver_other.ni solver_other.nj i)
    ∧ (bc_connection hook solver solver_other ci oi num 21).1.temp_surf
          (surf_target ci solver.ni solver.nj i)
        = solver_other.temp_surf (surf_source oi solver_other.ni solver_other.nj i)
    ∧ (bc_connection hook solver solver_other ci oi num 22).1.gradient_v_surf
          (surf_target ci solver.ni solver.nj i)
        = solver_other.gradient_v_surf (surf_source oi solver_other.ni solver_other.nj i)
    ∧ (bc_connection hook solver solver_other ci oi num 22).1.gradient_temp_surf
          (surf_target ci solver.ni solver.nj i)
        = solver_other.gradient_temp_surf (surf_source oi solver_other.ni solver_other.nj i) := by
  refine ⟨?_, ?_, ?_, ?_, ?_⟩
  · intro dir send
    unfold calc_bc_surf_range surface_range_offset_spec
    by_cases h1 : dir = 0 <;> by_cases h2 : send = 1 <;> simp [h1, h2]
  · unfold bc_connection
    refine foldl_write_get _ BlockState.v_surf (surf_target ci solver.ni solver.nj)
      (fun k => solver_other.v_surf (surf_source oi solver_other.ni solver_other.nj k))
      num ?_ ?_ ?_ solver i hi
    · intro s k hk
      rw [bc_cell_update_vts_apply]
      simp [updateF, surf_target, surf_source]
    · intro s k x hk hne
      simp only [surf_target] at hne
      rw [bc_cell_update_vts_apply]
      simp [updateF, hne]
    · intro a b ha hb he
      exact surf_target_inj ci solver.ni solver.nj hdir a b he
  · unfold bc_connection
    refine foldl_write_get _ BlockState.temp_surf (surf_target ci solver.ni solver.nj)
      (fun k => solver_other.temp_surf (surf_source oi solver_other.ni solver_other.nj k))
      num ?_ ?_ ?_ solver i hi
    · intro s k hk
      rw [bc_cell_update_vts_apply]
      simp [updateF, surf_target, surf_source]
    · intro s k x hk hne
      simp only [surf_target] at hne
      rw [bc_cell_update_vts_apply]
      simp [updateF, hne]
    · intro a b ha hb he
      exact surf_target_inj ci solver.ni solver.nj hdir a b he
  · unfold bc_connection
    refine foldl_write_get _ BlockState.gradient_v_surf (surf_target ci solver.ni solver.nj)
      (fun k => solver_other.gradient_v_surf (surf_source oi solver_other.ni solver_other.nj k))
      num ?_ ?_ ?_ solver i hi
    · intro s k hk
      rw [bc_cell_update_grads_apply]
      simp [updateF, surf_target, surf_source]
    · intro s k x hk hne
      simp only [surf_target] at hne
      rw [bc_cell_update_grads_apply]
      simp [updateF, hne]
    · intro a b ha hb he
      exact surf_target_inj ci solver.ni solver.nj hdir a b he
  · unfold bc_connection
    refine foldl_write_get _ BlockState.gradient_temp_surf (surf_target ci solver.ni solver.nj)
      (fun k => solver_other.gradient_temp_surf (surf_source oi solver_other.ni solver_other.nj k))
      num ?_ ?_ ?_ solver i hi
    · intro s k hk
      rw [bc_cell_update_grads_apply]
      simp [updateF, surf_target, surf_source]
    · intro s k x hk hne
      simp only [surf_target] at hne
      rw [bc_cell_update_grads_apply]
      simp [updateF, hne]
    · intro a b ha hb he
      exact surf_target_inj ci solver.ni solver.nj hdir a b he

/-- Concrete instantiation of the C8 theorem: owner i-end face coupled to a
neighbour j-start face, `num = 2`, cell `i = 1`. -/
theorem surface_stage_transfer_correct_witness :
    ((1 : ℤ) = 1 ∨ (1 : ℤ) = -1) ∧ 1 < 2 ∧
      ((∀ dir send, calc_bc_surf_range dir send = surface_range_offset_spec dir send)
      ∧ (bc_connection wHook wBlockA wBlockB ⟨1, 1, 0, 1⟩ ⟨1, 1, 1, 0⟩ 2 21).1.v_surf
            (surf_target ⟨1, 1, 0, 1⟩ wBlockA.ni wBlockA.nj 1)
          = wBlockB.v_surf (surf_source ⟨1, 1, 1, 0⟩ wBlockB.ni wBlockB.nj 1)
      ∧ (bc_connection wHook wBlockA wBlockB ⟨1, 1, 0, 1⟩ ⟨1, 1, 1, 0⟩ 2 21).1.temp_surf
            (surf_target ⟨1, 1, 0, 1⟩ wBlockA.ni wBlockA.nj 1)
          = wBlockB.temp_surf (surf_source ⟨1, 1, 1, 0⟩ wBlockB.ni wBlockB.nj 1)
      ∧ (bc_connection wHook wBlockA wBlockB ⟨1, 1, 0, 1⟩ ⟨1, 1, 1, 0⟩ 2 22).1.gradient_v_surf
            (surf_target ⟨1, 1, 0, 1⟩ wBlockA.ni wBlockA.nj 1)
          = wBlockB.gradient_v_surf (surf_source ⟨1, 1, 1, 0⟩ wBlockB.ni wBlockB.nj 1)
      ∧ (bc_connection wHook wBlockA wBlockB ⟨1, 1, 0, 1⟩ ⟨1, 1, 1, 0⟩ 2 22).1.gradient_temp_surf
            (surf_target ⟨1, 1, 0, 1⟩ wBlockA.ni wBlockA.nj 1)
          = wBlockB.gradient_temp_surf (surf_source ⟨1, 1, 1, 0⟩ wBlockB.ni wBlockB.nj 1)) :=
  ⟨Or.inl rfl, by decide,
    surface_stage_transfer_correct wHook wBlockA wBlockB ⟨1, 1, 0, 1⟩ ⟨1, 1, 1, 0⟩ 2
      (Or.inl rfl) 1 (by decide)⟩

/-- C6 (code-bug evidence): for every stage value outside the closed tag set
{-1, 0, 1, 10, 20, 21, 22}, the halo-transfer dispatcher silently leaves
both blocks entirely unchanged — the kernel's `elif` chain has no final
`else` that raises (only the comment `# else: Exception (not in kernel),
asset?`), so there is no fail-fast error, contrary to the claim. -/
theorem unknown_stage_silently_noops {V : Type}
    (hook : BlockState V → Vec2 → Vec2 → ℕ → ℕ → BlockState V)
    (solver solver_other : BlockState V) (ci oi : ConnInfo) (num : ℕ) (stage : ℤ)
    (h1 : stage ≠ -1) (h2 : stage ≠ 0) (h3 : stage ≠ 1) (h4 : stage ≠ 10)
    (h5 : stage ≠ 20) (h6 : stage ≠ 21) (h7 : stage ≠ 22) :
    bc_connection hook solver solver_other ci oi num stage = (solver, solver_other) := by
  have hfix : ∀ (f : BlockState V → ℕ → BlockState V), (∀ s k, f s k = s) →
      ((List.range num).foldl f solver, solver_other)
        = ((solver : BlockState V), solver_other) := by
    intro f hf
    rw [foldl_fixed_of_id f num hf solver]
  unfold bc_connection
  exact hfix _ (fun s k =>
    bc_cell_update_other_apply hook solver_other _ _ _ _ _ _ _ _ _ ci oi stage
      h1 h2 h3 h4 h5 h6 h7 s k)

/-- Concrete instantiation of the C6 theorem at the out-of-set stage 2: the
transfer is a silent no-op on the witness blocks. -/
theorem unknown_stage_silently_noops_witness :
    ((2 : ℤ) ≠ -1 ∧ (2 : ℤ) ≠ 0 ∧ (2 : ℤ) ≠ 1 ∧ (2 : ℤ) ≠ 10
      ∧ (2 : ℤ) ≠ 20 ∧ (2 : ℤ) ≠ 21 ∧ (2 : ℤ) ≠ 22)
    ∧ bc_connection wHook wBlockA wBlockB ⟨1, 1, 0, 0⟩ ⟨1, 1, 0, 1⟩ 3 2
        = (wBlockA, wBlockB) :=
  ⟨by refine ⟨?_, ?_, ?_, ?_, ?_, ?_, ?_⟩ <;> decide,
    unknown_stage_silently_noops wHook wBlockA wBlockB ⟨1, 1, 0, 0⟩ ⟨1, 1, 0, 1⟩ 3 2
      (by decide) (by decide) (by decide) (by decide) (by decide) (by decide) (by decide)⟩

/-- One side of a registered connection: the block index followed by the
positional descriptor, i.e. the tuple
`(block, start, march direction, surface direction, surface start/end)`. -/
structure BCDef where
  block : ℕ
  info : ConnInfo
deriving DecidableEq, Repr

/-- A registered coupling `((bc_def), (bc_other_side_def), number of cells)`
as stored in `bc_connection_info`. -/
abbrev Coupling := BCDef × BCDef × ℕ

/-- The connection registry owned by `MultiBlockSolver`. -/
structure MultiBlockConnState where
  bc_connection_info : List Coupling
deriving DecidableEq, Repr

/-- Embedding of `MultiBlockSolver.set_bc_connection`, whose entire body is
the single assignment `self.bc_connection_info = connections`: the list is
stored verbatim, with no validation of any kind and no error path. -/
def set_bc_connection (s : MultiBlockConnState) (connections : List Coupling) :
    MultiBlockConnState :=
  { s with bc_connection_info := connections }

/-- C7 (code-bug evidence): registering a coupling whose two sides lie on
faces of different lengths (the i-end face of a 4×4 block against the
i-start face of an 8×8 block, with `num = 8` exceeding the 4 boundary cells
of block 0's face) is accepted and stored verbatim: `set_bc_connection`
performs no validation and has no error path, so no `ConfigurationError`
is raised at registration time, contrary to the claim. -/
theorem set_bc_connection_accepts_mismatch :
    (set_bc_connection ⟨[]⟩
        [(⟨0, ⟨1, 1, 0, 1⟩⟩, ⟨1, ⟨1, 1, 0, 0⟩⟩, 8)]).bc_connection_info
      = [(⟨0, ⟨1, 1, 0, 1⟩⟩, ⟨1, ⟨1, 1, 0, 0⟩⟩, 8)] := rfl

/-- One observable controller action of the time-marching pipeline: a
per-block solver hook call, or one inter-block synchronization
(`bc_interblock(stage)`, which iterates all registered couplings). -/
inductive Ev where
  | time_save_q (b : ℕ)
  | bc (b : ℕ) (stage : ℤ)
  | sync (stage : ℤ)
  | clear_flux (b : ℕ)
  | calc_u_temp_center (b : ℕ)
  | flux_diffusion_interp_qsurf (b : ℕ)
  | flux_diffusion_integrate_gradient_center (b : ℕ)
  | flux_diffusion_calc_gradient_surf (b : ℕ)
  | calc_flux_diffusion (b : ℕ)
  | flux_advect (b : ℕ)
  | time_march_rk3 (b : ℕ) (i : ℕ)
  | time_save_q_dual (b : ℕ)
  | time_save_q_dual_sub (b : ℕ)
  | time_march_rk3_dual (b : ℕ) (i : ℕ) (step_index : ℕ)
deriving DecidableEq, Repr

/-- Actions of a `for solver in self.solvers` loop, one block at a time. -/
def forAllBlocks (n : ℕ) (f : ℕ → List Ev) : List Ev :=
  ((List.range n).map f).flatten

/-- The actions of one RK3 sub-stage `i` of `MultiBlockSolver.step`,
transcribed statement by statement from the body of its `for i in range(3)`
loop (the viscous block's `solver.bc(20)` is commented out in the source,
so stage 20 has no local-BC action). -/
def rk3_substage_events (n_blocks : ℕ) (is_viscous : Bool) (i : ℕ) : List Ev :=
  forAllBlocks n_blocks (fun b => [Ev.bc b 0]) ++ [Ev.sync 0]
  ++ forAllBlocks n_blocks (fun b => [Ev.clear_flux b])
  ++ (if is_viscous then
        forAllBlocks n_blocks (fun b => [Ev.calc_u_temp_center b]) ++ [Ev.sync 20]
        ++ forAllBlocks n_blocks (fun b => [Ev.flux_diffusion_interp_qsurf b, Ev.bc b 21])
        ++ [Ev.sync 21]
        ++ forAllBlocks n_blocks (fun b => [Ev.flux_diffusion_integrate_gradient_center b, Ev.bc b 1])
        ++ [Ev.sync 1]
        ++ forAllBlocks n_blocks (fun b => [Ev.flux_diffusion_calc_gradient_surf b, Ev.bc b 22])
        ++ [Ev.sync 22]
        ++ forAllBlocks n_blocks (fun b => [Ev.calc_flux_diffusion b])
      else [])
  ++ forAllBlocks n_blocks (fun b => [Ev.flux_advect b, Ev.bc b 10]) ++ [Ev.sync 10]
  ++ forAllBlocks n_blocks (fun b => [Ev.time_march_rk3 b i])

/-- The action trace of `MultiBlockSolver.step`: one state save per block,
then the three RK3 sub-stages. -/
def step_trace (n_blocks : ℕ) (is_viscous : Bool) : List Ev :=
  forAllBlocks n_blocks (fun b => [Ev.time_save_q b])
  ++ ((List.range 3).map (rk3_substage_events n_blocks is_viscous)).flatten

/-- Spec-side sub-stage trace, written from the claim's wording: for every
block apply local boundary conditions for the state category, then
synchronize the state stage, then clear every block's flux accumulators,
then (only if viscous) the chain center velocity/temperature →
sync center-vt → face-state interpolation with its local BC → sync face-vt
→ center gradients with their local BC → sync gradient-center → face
gradients with their local BC → sync gradient-surface → diffusive flux;
then advective flux with its local BC per block, sync the advective-flux
stage, and finally advance each block with the sub-stage index. -/
def rk3_substage_spec (n_blocks : ℕ) (is_viscous : Bool) (i : ℕ) : List Ev :=
  forAllBlocks n_blocks (fun b => [Ev.bc b 0])
  ++ [Ev.sync 0]
  ++ forAllBlocks n_blocks (fun b => [Ev.clear_flux b])
  ++ (if is_viscous then
        forAllBlocks n_blocks (fun b => [Ev.calc_u_temp_center b])
        ++ [Ev.sync 20]
        ++ forAllBlocks n_blocks (fun b => [Ev.flux_diffusion_interp_qsurf b, Ev.bc b 21])
        ++ [Ev.sync 21]
        ++ forAllBlocks n_blocks (fun b => [Ev.flux_diffusion_integrate_gradient_center b, Ev.bc b 1])
        ++ [Ev.sync 1]
        ++ forAllBlocks n_blocks (fun b => [Ev.flux_diffusion_calc_gradient_surf b, Ev.bc b 22])
        ++ [Ev.sync 22]
        ++ forAllBlocks n_blocks (fun b => [Ev.calc_flux_diffusion b])
      else [])
  ++ forAllBlocks n_blocks (fun b => [Ev.flux_advect b, Ev.bc b 10])
  ++ [Ev.sync 10]
  ++ forAllBlocks n_blocks (fun b => [Ev.time_march_rk3 b i])

/-- Spec-side step trace: a single save of the state before the three
sub-stages, then sub-stages 0, 1, 2 in order. -/
def step_spec_trace (n_blocks : ℕ) (is_viscous : Bool) : List Ev :=
  forAllBlocks n_blocks (fun b => [Ev.time_save_q b])
  ++ (rk3_substage_spec n_blocks is_viscous 0
      ++ (rk3_substage_spec n_blocks is_viscous 1
          ++ (rk3_substage_spec n_blocks is_viscous 2 ++ [])))

/-- C1: for every configuration (block count and viscous flag), the action
trace of `step()` is exactly the claim's sequence: one state save per
block, then three RK3 sub-stages, each performing in strict order local
state BC, state sync, flux clear, the viscous chain when enabled, the
advective-flux phase with its sync, and the per-block RK3 advance with the
sub-stage index. -/
theorem step_trace_matches_spec (n_blocks : ℕ) (is_viscous : Bool) :
    step_trace n_blocks is_viscous = step_spec_trace n_blocks is_viscous := by
  unfold step_trace step_spec_trace rk3_substage_events rk3_substage_spec
  simp [List.range_succ]

/-- The actions of one RK3 sub-stage `i` of `MultiBlockSolver.step_dual`,
transcribed statement by statement from the inner `for i in range(3)` loop;
identical to the plain sub-stage except that the advance is
`time_march_rk3_dual(i, step_index)`. -/
def dual_rk3_substage_events (n_blocks : ℕ) (is_viscous : Bool) (step_index i : ℕ) : List Ev :=
  forAllBlocks n_blocks (fun b => [Ev.bc b 0]) ++ [Ev.sync 0]
  ++ forAllBlocks n_blocks (fun b => [Ev.clear_flux b])
  ++ (if is_viscous then
        forAllBlocks n_blocks (fun b => [Ev.calc_u_temp_center b]) ++ [Ev.sync 20]
        ++ forAllBlocks n_blocks (fun b => [Ev.flux_diffusion_interp_qsurf b, Ev.bc b 21])
        ++ [Ev.sync 21]
        ++ forAllBlocks n_blocks (fun b => [Ev.flux_diffusion_integrate_gradient_center b, Ev.bc b 1])
        ++ [Ev.sync 1]
        ++ forAllBlocks n_blocks (fun b => [Ev.flux_diffusion_calc_gradient_surf b, Ev.bc b 22])
        ++ [Ev.sync 22]
        ++ forAllBlocks n_blocks (fun b => [Ev.calc_flux_diffusion b])
      else [])
  ++ forAllBlocks n_blocks (fun b => [Ev.flux_advect b, Ev.bc b 10]) ++ [Ev.sync 10]
  ++ forAllBlocks n_blocks (fun b => [Ev.time_march_rk3_dual b i step_index])

/-- The action trace of `MultiBlockSolver.step_dual`: one dual save per
block, then an outer pseudo-time loop of exactly 3 sub-iterations, each
saving the dual sub-state per block and running the full RK3 sequence. -/
def step_dual_trace (n_blocks : ℕ) (is_viscous : Bool) (step_index : ℕ) : List Ev :=
  forAllBlocks n_blocks (fun b => [Ev.time_save_q_dual b])
  ++ ((List.range 3).map (fun _ =>
        forAllBlocks n_blocks (fun b => [Ev.time_save_q_dual_sub b])
        ++ ((List.range 3).map (dual_rk3_substage_events n_blocks is_viscous step_index)).flatten)).flatten

/-- Recognizes block `b`'s `time_save_q_dual` call. -/
def is_save_q_dual (b : ℕ) (e : Ev) : Bool :=
  match e with
  | Ev.time_save_q_dual a => a == b
  | _ => false

/-- Recognizes block `b`'s `time_save_q_dual_sub` call. -/
def is_save_q_dual_sub (b : ℕ) (e : Ev) : Bool :=
  match e with
  | Ev.time_save_q_dual_sub a => a == b
  | _ => false

/-- Recognizes block `b`'s `time_march_rk3_dual` call (any sub-stage). -/
def is_march_dual (b : ℕ) (e : Ev) : Bool :=
  match e with
  | Ev.time_march_rk3_dual a _ _ => a == b
  | _ => false

/-- Counting over a per-block fan-out reduces to a sum over the blocks. -/
theorem countP_forAllBlocks (p : Ev → Bool) (n : ℕ) (f : ℕ → List Ev) :
    (forAllBlocks n f).countP p = ((List.range n).map (fun b => (f b).countP p)).sum := by
  unfold forAllBlocks
  rw [List.countP_flatten, List.map_map]
  rfl

/-- A sum over `range n` of a function vanishing below `n` is zero. -/
theorem sum_map_range_zero (g : ℕ → ℕ) (n : ℕ) (h : ∀ b, b < n → g b = 0) :
    ((List.range n).map g).sum = 0 := by
  induction n with
  | zero => rfl
  | succ m ih =>
    rw [List.range_succ, List.map_append, List.sum_append]
    simp [h m (by omega), ih (fun b hb => h b (by omega))]

/-- A sum over `range n` of a function supported at `b < n` is `g b`. -/
theorem sum_map_range_single (g : ℕ → ℕ) (n b : ℕ) (hb : b < n)
    (h0 : ∀ a, a ≠ b → g a = 0) :
    ((List.range n).map g).sum = g b := by
  induction n with
  | zero => omega
  | succ m ih =>
    rw [List.range_succ, List.map_append, List.sum_append]
    by_cases hcase : b = m
    · subst hcase
      rw [sum_map_range_zero g b (fun a ha => h0 a (by omega))]
      simp
    · rw [ih (by omega)]
      simp [h0 m (by omega)]

/-- No `time_save_q_dual` call occurs inside an RK3 sub-stage. -/
theorem countP_dual_substage_save (n : ℕ) (v : Bool) (s i b : ℕ) :
    (dual_rk3_substage_events n v s i).countP (is_save_q_dual b) = 0 := by
  cases v <;>
    simp [dual_rk3_substage_events, List.countP_append, countP_forAllBlocks,
      List.countP_cons, List.countP_nil, is_save_q_dual, List.map_const',
      List.sum_replicate]

/-- No `time_save_q_dual_sub` call occurs inside an RK3 sub-stage. -/
theorem countP_dual_substage_save_sub (n : ℕ) (v : Bool) (s i b : ℕ) :
    (dual_rk3_substage_events n v s i).countP (is_save_q_dual_sub b) = 0 := by
  cases v <;>
    simp [dual_rk3_substage_events, List.countP_append, countP_forAllBlocks,
      List.countP_cons, List.countP_nil, is_save_q_dual_sub, List.map_const',
      List.sum_replicate]

/-- Each RK3 sub-stage advances block `b` exactly once
(`time_march_rk3_dual`). -/
theorem countP_dual_substage_march (n : ℕ) (v : Bool) (s i b : ℕ) (hb : b < n) :
    (dual_rk3_substage_events n v s i).countP (is_march_dual b) = 1 := by
  have hone : ((List.range n).map (fun a => if a = b then 1 else 0)).sum = 1 := by
    rw [sum_map_range_single _ n b hb]
    · simp
    · intro a ha
      simp [ha]
  cases v <;>
    simp [dual_rk3_substage_events, List.countP_append, countP_forAllBlocks,
      List.countP_cons, List.countP_nil, is_march_dual, List.map_const',
      List.sum_replicate, hone]

/-- C5: every call of the dual-time step saves the dual state of block `b`
exactly once (before the outer loop), saves the dual sub-state exactly 3
times (once per outer pseudo-time sub-iteration), and performs exactly 9 RK
sub-stage advances of block `b` (the full RK3 sequence exactly 3 times);
the counts are fixed constants of the trace, independent of the
configuration, so the outer iteration count is 3 and not adaptive. -/
theorem step_dual_trace_counts (n : ℕ) (v : Bool) (s b : ℕ) (hb : b < n) :
    (step_dual_trace n v s).countP (is_save_q_dual b) = 1
    ∧ (step_dual_trace n v s).countP (is_save_q_dual_sub b) = 3
    ∧ (step_dual_trace n v s).countP (is_march_dual b) = 9 := by
  have hone : ((List.range n).map (fun a => if a = b then 1 else 0)).sum = 1 := by
    rw [sum_map_range_single _ n b hb]
    · simp
    · intro a ha
      simp [ha]
  have hm : ∀ i, (dual_rk3_substage_events n v s i).countP (is_march_dual b) = 1 :=
    fun i => countP_dual_substage_march n v s i b hb
  have hs0 : ∀ i, (dual_rk3_substage_events n v s i).countP (is_save_q_dual b) = 0 :=
    fun i => countP_dual_substage_save n v s i b
  have hss0 : ∀ i, (dual_rk3_substage_events n v s i).countP (is_save_q_dual_sub b) = 0 :=
    fun i => countP_dual_substage_save_sub n v s i b
  have hmc : List.countP (is_march_dual b) ∘ dual_rk3_substage_events n v s = fun i => 1 :=
    funext hm
  have hs0c : List.countP (is_save_q_dual b) ∘ dual_rk3_substage_events n v s = fun i => 0 :=
    funext hs0
  have hss0c : List.countP (is_save_q_dual_sub b) ∘ dual_rk3_substage_events n v s = fun i => 0 :=
    funext hss0
  refine ⟨?_, ?_, ?_⟩ <;>
    simp [step_dual_trace, List.countP_append, List.countP_flatten, List.map_map,
      countP_forAllBlocks, List.countP_cons, List.countP_nil,
      is_save_q_dual, is_save_q_dual_sub, is_march_dual,
      List.map_const', List.sum_replicate, hmc, hs0c, hss0c, hone]

/-- Concrete instantiation of the C5 theorem: two viscous blocks, block 1,
outer step index 5. -/
theorem step_dual_trace_counts_witness :
    1 < 2
    ∧ ((step_dual_trace 2 true 5).countP (is_save_q_dual 1) = 1
      ∧ (step_dual_trace 2 true 5).countP (is_save_q_dual_sub 1) = 3
      ∧ (step_dual_trace 2 true 5).countP (is_march_dual 1) = 9) :=
  ⟨by decide, step_dual_trace_counts 2 true 5 1 (by decide)⟩

/-- One visible action of the interactive simulation loop of
`MultiBlockSolver.run`. -/
inductive SimAction where
  | step_dual_call (step_index : ℕ)
  | step_call
  | display_call (step_index : ℕ)
  | display_output_line_call
deriving DecidableEq, Repr

/-- The loop-relevant state of `MultiBlockSolver.run`: configuration flags,
the wall clock `t` and every block's `t` field.  Time is embedded over `ℚ`;
the claim is about which operations run and where `t` is propagated, not
about floating-point rounding. -/
structure SimState where
  n_blocks : ℕ
  is_dual_time : Bool
  display_steps : ℕ
  display_field : Bool
  output_line : Bool
  dt : ℚ
  t : ℚ
  solver_t : ℕ → ℚ

/-- One simulation sub-step of the `for step in range(self.display_steps)`
loop: call `step_dual(step_index)` if dual time is configured, else
`step()`; then `self.t += self.dt`; then set every block's `t` to the new
`self.t`. -/
def run_substep (step_index : ℕ) (s : SimState) : SimState × SimAction :=
  let a := if s.is_dual_time then SimAction.step_dual_call step_index else SimAction.step_call
  let t := s.t + s.dt
  ({ s with t := t, solver_t := fun b => if b < s.n_blocks then t else s.solver_t b }, a)

/-- `k` consecutive sub-steps, returning the final state and the actions in
execution order. -/
def run_steps (step_index : ℕ) : ℕ → SimState → SimState × List SimAction
  | 0, s => (s, [])
  | k + 1, s =>
    let first := run_substep step_index s
    let rest := run_steps step_index k first.1
    (rest.1, first.2 :: rest.2)

/-- One iteration of the `while self.gui.running` loop of
`MultiBlockSolver.run`, after event processing has fixed the pause flag:
when paused, re-render only if field display is configured and `continue`
without stepping; otherwise run `display_steps` sub-steps, then render the
field and the output line as configured. -/
def run_iteration (pause : Bool) (step_index : ℕ) (s : SimState) :
    SimState × List SimAction :=
  if pause then
    (s, if s.display_field then [SimAction.display_call step_index] else [])
  else
    let stepped := run_steps step_index s.display_steps s
    (stepped.1,
      stepped.2
        ++ (if s.display_field then [SimAction.display_call step_index] else [])
        ++ (if s.output_line then [SimAction.display_output_line_call] else []))

/-- Aggregate behaviour of `k` sub-steps: configuration fields are
untouched, the actions are `k` copies of the configured stepper call, the
clock advances by `k * dt`, block `t` fields beyond `n_blocks` are
untouched, and after at least one sub-step every block's `t` equals the
final clock. -/
theorem run_steps_spec (step_index k : ℕ) (s : SimState) :
    (run_steps step_index k s).1.n_blocks = s.n_blocks
    ∧ (run_steps step_index k s).1.is_dual_time = s.is_dual_time
    ∧ (run_steps step_index k s).1.display_steps = s.display_steps
    ∧ (run_steps step_index k s).1.display_field = s.display_field
    ∧ (run_steps step_index k s).1.output_line = s.output_line
    ∧ (run_steps step_index k s).1.dt = s.dt
    ∧ (run_steps step_index k s).1.t = s.t + k * s.dt
    ∧ (run_steps step_index k s).2
        = List.replicate k
            (if s.is_dual_time then SimAction.step_dual_call step_index else SimAction.step_call)
    ∧ (∀ b, ¬ b < s.n_blocks → (run_steps step_index k s).1.solver_t b = s.solver_t b)
    ∧ (∀ b, b < s.n_blocks → 0 < k →
        (run_steps step_index k s).1.solver_t b = (run_steps step_index k s).1.t) := by
  induction k generalizing s with
  | zero =>
    refine ⟨rfl, rfl, rfl, rfl, rfl, rfl, by simp [run_steps], rfl, fun b hb => rfl, ?_⟩
    intro b hb hk
    omega
  | succ m ih =>
    obtain ⟨h1, h2, h3, h4, h5, h6, h7, h8, h9, h10⟩ := ih (run_substep step_index s).1
    refine ⟨h1, h2, h3, h4, h5, h6, ?_, ?_, ?_, ?_⟩
    · show (run_steps step_index m (run_substep step_index s).1).1.t = s.t + (m + 1 : ℕ) * s.dt
      rw [h7]
      show s.t + s.dt + (m : ℚ) * s.dt = s.t + ((m + 1 : ℕ) : ℚ) * s.dt
      push_cast
      ring
    · show (if s.is_dual_time then SimAction.step_dual_call step_index else SimAction.step_call)
          :: (run_steps step_index m (run_substep step_index s).1).2
        = List.replicate (m + 1)
            (if s.is_dual_time then SimAction.step_dual_call step_index else SimAction.step_call)
      rw [h8]
      rfl
    · intro b hb
      show (run_steps step_index m (run_substep step_index s).1).1.solver_t b = s.solver_t b
      rw [h9 b hb]
      simp only [run_substep]
      simp [hb]
    · intro b hb hk
      rcases Nat.eq_zero_or_pos m with hm | hm
      · subst hm
        show (run_substep step_index s).1.solver_t b = (run_substep step_index s).1.t
        simp [run_substep, hb]
      · exact h10 b hb hm

/-- Concrete simulation state with field display disabled. -/
def wSimNoField : SimState :=
  { n_blocks := 2, is_dual_time := false, display_steps := 20,
    display_field := false, output_line := false,
    dt := 1 / 2, t := 3, solver_t := fun _ => 3 }

/-- C10 (counterexample to the claim as stated): while paused with field
display disabled, the loop body of `run` renders nothing at all — the
paused branch re-renders only under `if self.display_field:` — so "the
last frame is re-rendered" fails for this configuration (the state,
including `t`, is indeed unchanged). -/
theorem run_pause_renders_nothing_without_display_field :
    (run_iteration true 7 wSimNoField).2 = []
    ∧ (run_iteration true 7 wSimNoField).1 = wSimNoField :=
  ⟨rfl, rfl⟩

/-- C10 (amended): in every iteration of the simulation loop while running
and not paused, exactly `display_steps` sub-steps are executed (`step_dual`
if dual-time is configured, otherwise `step`), the wall clock is advanced
by `dt` after each sub-step (so by `display_steps * dt` in total) and the
resulting `t` is propagated to every block's `t` field; while paused, no
sub-step is executed, the state (including `t` and every block `t`) is
unchanged, and the last frame is re-rendered exactly when field display is
configured. -/
theorem run_iteration_behavior (pause : Bool) (step_index : ℕ) (s : SimState) :
    (pause = true →
      run_iteration true step_index s
        = (s, if s.display_field then [SimAction.display_call step_index] else []))
    ∧ (pause = false →
      (run_iteration false step_index s).2
        = List.replicate s.display_steps
            (if s.is_dual_time then SimAction.step_dual_call step_index else SimAction.step_call)
          ++ (if s.display_field then [SimAction.display_call step_index] else [])
          ++ (if s.output_line then [SimAction.display_output_line_call] else [])
      ∧ (run_iteration false step_index s).1.t = s.t + s.display_steps * s.dt
      ∧ (∀ b, b < s.n_blocks → 0 < s.display_steps →
          (run_iteration false step_index s).1.solver_t b
            = (run_iteration false step_index s).1.t)
      ∧ (∀ b, ¬ b < s.n_blocks →
          (run_iteration false step_index s).1.solver_t b = s.solver_t b)) := by
  obtain ⟨h1, h2, h3, h4, h5, h6, h7, h8, h9, h10⟩ :=
    run_steps_spec step_index s.display_steps s
  refine ⟨fun _ => rfl, fun _ => ⟨?_, h7, h10, h9⟩⟩
  show (run_steps step_index s.display_steps s).2
      ++ (if s.display_field then [SimAction.display_call step_index] else [])
      ++ (if s.output_line then [SimAction.display_output_line_call] else [])
    = _
  rw [h8]

/-- Concrete simulation state with dual time and both outputs enabled. -/
def wSimField : SimState :=
  { n_blocks := 2, is_dual_time := true, display_steps := 3,
    display_field := true, output_line := true,
    dt := 1 / 2, t := 0, solver_t := fun _ => 0 }

/-- Concrete instantiation of the amended C10 theorem at a running
(non-paused) iteration of the dual-time configuration. -/
theorem run_iteration_behavior_witness :
    (false = true →
      run_iteration true 4 wSimField
        = (wSimField, if wSimField.display_field then [SimAction.display_call 4] else []))
    ∧ (false = false →
      (run_iteration false 4 wSimField).2
        = List.replicate wSimField.display_steps
            (if wSimField.is_dual_time then SimAction.step_dual_call 4 else SimAction.step_call)
          ++ (if wSimField.display_field then [SimAction.display_call 4] else [])
          ++ (if wSimField.output_line then [SimAction.display_output_line_call] else [])
      ∧ (run_iteration false 4 wSimField).1.t
          = wSimField.t + wSimField.display_steps * wSimField.dt
      ∧ (∀ b, b < wSimField.n_blocks → 0 < wSimField.display_steps →
          (run_iteration false 4 wSimField).1.solver_t b
            = (run_iteration false 4 wSimField).1.t)
      ∧ (∀ b, ¬ b < wSimField.n_blocks →
          (run_iteration false 4 wSimField).1.solver_t b = wSimField.solver_t b)) :=
  run_iteration_behavior false 4 wSimField
